import Mathlib

/-!
Verification of the backup-server agent (Go) against its specification.

This file contains a shallow embedding of the core pipeline of the agent:

* `backup.go`       — `ExecuteBackup`, `createArchive`, `countFiles`,
                      `uploadToS3`, `uploadDirectoryToS3`, `cleanupOldBackups`
* `backup_storage.go` — `BackupRecord`, `SaveBackupRecord`, `UpdateBackupRecord`
* `cron.go`         — `CronManager.AddTask` / `RemoveTask` /
                      `updateSystemCron` / `removeFromSystemCron`

Effectful operations (file system, S3 network calls, process invocation,
clock) are modelled by explicit oracle values carried in `World` / `S3World`:
each fallible external call is represented by an `Option String` /
`Except String _` field giving the outcome the environment would produce.
Observable side effects (ledger file contents, local archive files,
docker signals, S3 operations issued) are threaded as explicit state and
operation traces.  All definitions are translated from the Go source.
-/

set_option maxRecDepth 4000

namespace BackupAgent

/-- Task definition, from `config.Task` (config.go).  Only the fields the
backup pipeline and scheduler read are modelled. -/
structure Task where
  taskID : Nat
  sourcePath : String
  createArchive : Bool
  archiveFormat : String
  s3Endpoint : String
  s3AccessKey : String
  s3SecretKey : String
  s3Bucket : String
  s3Region : String
  cleanupEnabled : Bool
  cleanupDays : Nat
  isDockerCompose : Bool
  dockerComposePath : String
  scheduleCron : String
  deriving DecidableEq

/-- Ledger entry, from `BackupRecord` (backup_storage.go).  Timestamps are
modelled as `Nat`; `ArchiveSizeMB` (a Go `float64`) is modelled as `ℚ` —
for the sizes involved the Go computation `float64(size)/(1024*1024)` is the
exact rational division. -/
structure BackupRecord where
  sourcePath : String
  archiveName : String
  backupDate : Nat
  s3UploadDate : Option Nat
  archiveSizeMB : ℚ
  s3Path : String
  status : String
  deriving DecidableEq

/-- Result of one run, from `BackupResult` (backup.go). -/
structure BackupResult where
  success : Bool := false
  archivePath : String := ""
  archiveSize : Nat := 0
  filesCount : Nat := 0
  error : String := ""
  s3Path : String := ""
  deriving DecidableEq

/-- Field update performed on the matching record by `UpdateBackupRecord`
(backup_storage.go lines 71-73): destination path, upload timestamp and
status `"success"`; every other field of the record is untouched. -/
def applyUpload (s3Path : String) (uploadDate : Nat) (r : BackupRecord) : BackupRecord :=
  { r with s3Path := s3Path, s3UploadDate := some uploadDate, status := "success" }

/-- List transformation of `UpdateBackupRecord` (backup_storage.go): the
loop updates the first record whose `ArchiveName` matches and `break`s;
the whole (possibly unchanged) list is then rewritten to the ledger file. -/
def updateRecords (archiveName s3Path : String) (uploadDate : Nat) :
    List BackupRecord → List BackupRecord
  | [] => []
  | r :: rs =>
    if r.archiveName == archiveName then applyUpload s3Path uploadDate r :: rs
    else r :: updateRecords archiveName s3Path uploadDate rs

/-- In-memory size backfill performed in `ExecuteBackup` (backup.go lines
94-100): the records slice returned by `GetBackupRecords` has the matching
matching record given its `ArchiveSizeMB`; the slice is a local variable and is never
written back to the ledger file. -/
def backfillSize (archiveName : String) (sizeBytes : Nat) :
    List BackupRecord → List BackupRecord
  | [] => []
  | r :: rs =>
    if r.archiveName == archiveName then
      { r with archiveSizeMB := (sizeBytes : ℚ) / (1024 * 1024) } :: rs
    else r :: backfillSize archiveName sizeBytes rs

/-! ### `filepath.Walk` and `countFiles` -/

/-- One visit delivered by `filepath.Walk`: `err` is whether the walk passed
a non-nil error for this path (in which case the file info is unusable),
`isRegular` is `info.Mode().IsRegular()`.  A nonexistent root produces
exactly one visit with `err = true`. -/
structure WalkEntry where
  err : Bool
  isRegular : Bool
  deriving DecidableEq

/-- Abort-aware walk driver: `filepath.Walk` feeds each visit to the
callback and stops as soon as the callback returns a non-nil error
(the returned `Bool` of `fn`). -/
def walkRun {σ : Type} (fn : σ → WalkEntry → σ × Bool) : σ → List WalkEntry → σ
  | s, [] => s
  | s, v :: vs =>
    let p := fn s v
    if p.2 then p.1 else walkRun fn p.1 vs

/-- Callback of `countFiles` (backup.go lines 223-227): count error-free
regular files; it always returns nil (never aborts the walk). -/
def countFilesFn (count : Nat) (v : WalkEntry) : Nat × Bool :=
  (if !v.err && v.isRegular then count + 1 else count, false)

/-- `countFiles` (backup.go lines 221-230), over the visit sequence the
filesystem walk yields for the path. -/
def countFiles (visits : List WalkEntry) : Nat :=
  walkRun countFilesFn 0 visits

/-! ### Object store (MinIO client) -/

/-- S3 operations issued against the object store, in order. -/
inductive S3Op where
  | bucketExistsCheck
  | makeBucket
  | putObject (key : String)
  | listObjects
  | removeObject (key : String)
  deriving DecidableEq

/-- One object returned by `ListObjects`; `err` models `object.Err != nil`. -/
structure S3Object where
  err : Bool
  key : String
  lastModified : Int
  deriving DecidableEq

/-- One visit of the `filepath.Walk` inside `uploadDirectoryToS3`:
`walkErr` is the walk/`filepath.Rel` error for this path (abort), `path` the
absolute path and `relPath` the path relative to the source root. -/
structure DirEntry where
  walkErr : Option String
  isRegular : Bool
  path : String
  relPath : String
  deriving DecidableEq

/-- Environment oracle for the object-store client: outcome of each
external call the uploader/cleanup can make.  `cutoff` models
`time.Now().AddDate(0, 0, -task.CleanupDays)`. -/
structure S3World where
  clientErr : Option String
  bucketExistsResult : Except String Bool
  makeBucketErr : Option String
  putObjectErr : Option String
  dirTimestamp : String
  dirEntries : List DirEntry
  dirPutErr : String → Option String
  listedObjects : List S3Object
  cutoff : Int

/-- Drop elements from the end of a character list while they satisfy `p`. -/
def dropWhileEnd (p : Char → Bool) (l : List Char) : List Char :=
  (l.reverse.dropWhile p).reverse

/-- Characters after the last occurrence of `sep` (the whole list when
`sep` does not occur). -/
def afterLast (sep : Char) (l : List Char) : List Char :=
  (l.reverse.takeWhile (fun c => c ≠ sep)).reverse

/-- `filepath.Base` for Unix paths: empty path gives `"."`, trailing
slashes are dropped, then the last component is taken; an all-slash path
gives `"/"`. -/
def baseName (p : String) : String :=
  if p = "" then "."
  else
    let cs := dropWhileEnd (fun c => c == '/') p.data
    if cs = [] then "/" else ⟨afterLast '/' cs⟩

/-- Shared check-and-create preamble of `uploadToS3` and
`uploadDirectoryToS3` (backup.go lines 251-261 and 294-303): check bucket
existence; on a missing bucket call `MakeBucket` with the configured
region; any error of either call is returned as-is (there is no special
case for an already-existing bucket).  Returns the error or the trace of
operations performed. -/
def ensureBucket (w : S3World) : Except String (List S3Op) :=
  match w.bucketExistsResult with
  | .error e => .error ("failed to check bucket: " ++ e)
  | .ok b =>
    if b then .ok [.bucketExistsCheck]
    else
      match w.makeBucketErr with
      | some e => .error ("failed to create bucket: " ++ e)
      | none => .ok [.bucketExistsCheck, .makeBucket]

/-- Trace of operations `ensureBucket` performed, also when it failed. -/
def ensureBucketOps (w : S3World) : List S3Op :=
  match w.bucketExistsResult with
  | .error _ => [.bucketExistsCheck]
  | .ok b =>
    if b then [.bucketExistsCheck]
    else [.bucketExistsCheck, .makeBucket]

/-- `uploadToS3` (backup.go lines 232-274): client construction, bucket
check/create, then `FPutObject` of the archive under its base name;
returns the `s3://bucket/object` path.  The result is paired with the
trace of object-store operations issued. -/
def uploadToS3 (task : Task) (archivePath : String) (w : S3World) :
    Except String String × List S3Op :=
  match w.clientErr with
  | some e => (.error ("failed to create S3 client: " ++ e), [])
  | none =>
    match ensureBucket w with
    | .error e => (.error e, ensureBucketOps w)
    | .ok ops =>
      let objectName := baseName archivePath
      match w.putObjectErr with
      | some e => (.error ("failed to upload file: " ++ e), ops ++ [.putObject objectName])
      | none =>
        (.ok ("s3://" ++ task.s3Bucket ++ "/" ++ objectName), ops ++ [.putObject objectName])

/-- Walk body of `uploadDirectoryToS3` (backup.go lines 309-330): abort on
a walk error; upload each regular file under key
`base_timestamp/relPath`; abort on the first upload failure. -/
def dirWalkUpload (baseN ts : String) (putErr : String → Option String) :
    List DirEntry → Option String × List S3Op
  | [] => (none, [])
  | e :: es =>
    match e.walkErr with
    | some werr => (some werr, [])
    | none =>
      if e.isRegular then
        let objectName := baseN ++ "_" ++ ts ++ "/" ++ e.relPath
        match putErr e.relPath with
        | some perr =>
          (some ("failed to upload " ++ e.path ++ ": " ++ perr), [.putObject objectName])
        | none =>
          let rest := dirWalkUpload baseN ts putErr es
          (rest.1, .putObject objectName :: rest.2)
      else dirWalkUpload baseN ts putErr es

/-- `uploadDirectoryToS3` (backup.go lines 276-340): client construction,
bucket check/create, then a sequential walk uploading every regular file;
returns the common `s3://bucket/base_timestamp/` prefix. -/
def uploadDirectoryToS3 (task : Task) (sourcePath : String) (w : S3World) :
    Except String String × List S3Op :=
  match w.clientErr with
  | some e => (.error ("failed to create S3 client: " ++ e), [])
  | none =>
    match ensureBucket w with
    | .error e => (.error e, ensureBucketOps w)
    | .ok ops =>
      match (dirWalkUpload (baseName sourcePath) w.dirTimestamp w.dirPutErr w.dirEntries).1 with
      | some e =>
        (.error e,
         ops ++ (dirWalkUpload (baseName sourcePath) w.dirTimestamp w.dirPutErr w.dirEntries).2)
      | none =>
        (.ok ("s3://" ++ task.s3Bucket ++ "/" ++ baseName sourcePath ++ "_" ++
              w.dirTimestamp ++ "/"),
         ops ++ (dirWalkUpload (baseName sourcePath) w.dirTimestamp w.dirPutErr w.dirEntries).2)

/-- Deletion sweep of `cleanupOldBackups` (backup.go lines 365-376):
objects with a listing error are skipped; an object strictly older than
the cutoff gets a `RemoveObject` call (whose own failure is only logged
and does not stop the sweep). -/
def cleanupSweep (cutoff : Int) : List S3Object → List S3Op
  | [] => []
  | o :: os =>
    if o.err then cleanupSweep cutoff os
    else if o.lastModified < cutoff then .removeObject o.key :: cleanupSweep cutoff os
    else cleanupSweep cutoff os

/-- `cleanupOldBackups` (backup.go lines 342-379): client construction,
then `ListObjects` over the whole bucket and best-effort deletion of every
object older than the cutoff.  Note there is no bucket-existence check in
this function.  Only a client-construction failure is returned. -/
def cleanupOldBackups (_task : Task) (w : S3World) : Option String × List S3Op :=
  match w.clientErr with
  | some e => (some e, [])
  | none => (none, .listObjects :: cleanupSweep w.cutoff w.listedObjects)

/-! ### Archive creation -/

/-- Sanitized source path used in the archive name (backup.go line 157):
`strings.ReplaceAll(strings.TrimPrefix(sourcePath, "/"), "/", "_")`. -/
def safePathChars (cs : List Char) : List Char :=
  (match cs with
   | '/' :: rest => rest
   | _ => cs).map (fun c => if c = '/' then '_' else c)

/-- Archive name (backup.go line 158):
`{serverIP}_{safePath}_{timestamp}.{format}`. -/
def archiveNameOf (sourcePath format serverIP timestamp : String) : String :=
  serverIP ++ "_" ++ (⟨safePathChars sourcePath.data⟩ : String) ++ "_" ++ timestamp ++ "." ++ format

/-- Archive output path (backup.go line 159): `filepath.Join("/tmp", name)`. -/
def archivePathOf (sourcePath format serverIP timestamp : String) : String :=
  "/tmp/" ++ archiveNameOf sourcePath format serverIP timestamp

/-- Environment oracle of one `ExecuteBackup` run. -/
structure World where
  now : Nat
  timestamp : String
  archiveBuildErr : Option String
  saveRecordErr : Option String
  statResult : Option Nat
  sourceWalk : List WalkEntry
  updateRecordErr : Option String
  removeErr : Option String
  s3 : S3World

/-- `createArchive` (backup.go lines 154-219): deterministic name/path
construction; the fallible part (file creation and the tar/gzip walk) is
the `archiveBuildErr` oracle.  On success the path and generated name are
returned. -/
def createArchive (sourcePath format serverIP : String) (w : World) :
    Except String (String × String) :=
  match w.archiveBuildErr with
  | some e => .error e
  | none =>
    .ok (archivePathOf sourcePath format serverIP w.timestamp,
         archiveNameOf sourcePath format serverIP w.timestamp)

/-! ### `ExecuteBackup` -/

/-- Observable events of one run, in program order. -/
inductive Event where
  | dockerStop
  | dockerStart
  | archiveCreated (path : String)
  | ledgerSave
  | ledgerUpdate
  | uploadArchive
  | uploadDirectory
  | removeLocal (path : String)
  | cleanup
  deriving DecidableEq

/-- Mutable system state threaded through a run: the parsed contents of
the ledger file, the set of local archive files, and the event trace. -/
structure RunState where
  ledger : List BackupRecord
  localFiles : List String
  events : List Event
  deriving DecidableEq

/-- Destination storage configured (backup.go line 111):
`task.S3Endpoint != "" && task.S3Bucket != ""`. -/
def s3Configured (task : Task) : Prop :=
  task.s3Endpoint ≠ "" ∧ task.s3Bucket ≠ ""

instance (task : Task) : Decidable (s3Configured task) :=
  inferInstanceAs (Decidable (_ ∧ _))

/-- Docker lifecycle guard active (backup.go line 35):
`task.IsDockerCompose && task.DockerComposePath != ""`. -/
def dockerGuard (task : Task) : Prop :=
  task.isDockerCompose = true ∧ task.dockerComposePath ≠ ""

instance (task : Task) : Decidable (dockerGuard task) :=
  inferInstanceAs (Decidable (_ ∧ _))

/-- Cleanup step (backup.go lines 144-148): `cleanupOldBackups` is invoked
when enabled and its failure is only logged; then the run is marked
successful and returned with a nil error. -/
def cleanupPhase (task : Task) (res : BackupResult) (w : World) (s : RunState) :
    BackupResult × Option String × RunState :=
  let s1 :=
    if task.cleanupEnabled then
      let _swept := cleanupOldBackups task w.s3
      { s with events := s.events ++ [Event.cleanup] }
    else s
  ({ res with success := true }, none, s1)

/-- Upload step (backup.go lines 110-141): with destination storage
configured, a produced archive is uploaded (failure aborts the run with
that error); on success the ledger record is updated (failure logged) and
the local archive removed (failure logged).  Without an archive the source
directory is uploaded directly (failure aborts); no ledger activity
happens on that path. -/
def uploadPhase (task : Task) (archiveName : String) (res : BackupResult)
    (w : World) (s : RunState) : BackupResult × Option String × RunState :=
  if s3Configured task then
    if res.archivePath ≠ "" then
      let s1 := { s with events := s.events ++ [Event.uploadArchive] }
      match (uploadToS3 task res.archivePath w.s3).1 with
      | .error e =>
        ({ res with error := "Failed to upload to S3: " ++ e }, some e, s1)
      | .ok s3Path =>
        let res1 := { res with s3Path := s3Path }
        let s2 :=
          match w.updateRecordErr with
          | none =>
            { s1 with ledger := updateRecords archiveName s3Path w.now s1.ledger,
                      events := s1.events ++ [Event.ledgerUpdate] }
          | some _ => s1
        let s3 :=
          match w.removeErr with
          | none =>
            { s2 with localFiles := s2.localFiles.erase res1.archivePath,
                      events := s2.events ++ [Event.removeLocal res1.archivePath] }
          | some _ => s2
        cleanupPhase task res1 w s3
    else
      let s1 := { s with events := s.events ++ [Event.uploadDirectory] }
      match (uploadDirectoryToS3 task task.sourcePath w.s3).1 with
      | .error e =>
        ({ res with error := "Failed to upload directory to S3: " ++ e }, some e, s1)
      | .ok s3Path => cleanupPhase task { res with s3Path := s3Path } w s1
  else cleanupPhase task res w s

/-- Body of `ExecuteBackup` after the docker guard (backup.go lines
66-151): optional archive creation with ledger write, size stat and
in-memory backfill, file counting, then upload and cleanup. -/
def executeBody (task : Task) (serverIP : String) (w : World) (s : RunState) :
    BackupResult × Option String × RunState :=
  if task.createArchive then
    match createArchive task.sourcePath task.archiveFormat serverIP w with
    | .error e =>
      ({ success := false, error := "Failed to create archive: " ++ e }, some e, s)
    | .ok pn =>
      let archivePath := pn.1
      let archiveName := pn.2
      let s1 := { s with localFiles := archivePath :: s.localFiles,
                         events := s.events ++ [Event.archiveCreated archivePath] }
      let record : BackupRecord :=
        { sourcePath := task.sourcePath, archiveName := archiveName,
          backupDate := w.now, s3UploadDate := none,
          archiveSizeMB := 0, s3Path := "", status := "creating" }
      let s2 :=
        match w.saveRecordErr with
        | none => { s1 with ledger := s1.ledger ++ [record],
                            events := s1.events ++ [Event.ledgerSave] }
        | some _ => s1
      let archiveSize :=
        match w.statResult with
        | some sz =>
          let _backfilled := backfillSize archiveName sz s2.ledger
          sz
        | none => 0
      let res : BackupResult :=
        { archivePath := archivePath, archiveSize := archiveSize,
          filesCount := countFiles w.sourceWalk }
      uploadPhase task archiveName res w s2
  else
    uploadPhase task "" { filesCount := countFiles w.sourceWalk } w s

/-- `ExecuteBackup` (backup.go lines 30-152).  When the docker guard is
active the compose project is signaled down first and — via `defer` — is
signaled back up when the function returns, on every exit path.  Stop and
start failures are only logged and have no observable effect beyond the
signals themselves. -/
def ExecuteBackup (task : Task) (serverIP : String) (w : World) (s : RunState) :
    BackupResult × Option String × RunState :=
  if dockerGuard task then
    let s0 := { s with events := s.events ++ [Event.dockerStop] }
    let r := executeBody task serverIP w s0
    (r.1, r.2.1, { r.2.2 with events := r.2.2.events ++ [Event.dockerStart] })
  else executeBody task serverIP w s

/-! ### Cron manager: in-process trigger table (cron.go) -/

/-- State of the `robfig/cron` engine together with the
manager `entries` table: `nextID` is the next fresh `EntryID` of the engine,
`live` the triggers registered in the engine as pairs `(entryID, taskID)`
(the task bound
by the closure), `entries` the manager map from task id to `cron.EntryID`. -/
structure CronState where
  nextID : Nat
  live : List (Nat × Nat)
  entries : Nat → Option Nat

/-- State of a freshly constructed `CronManager` (cron.go `New`). -/
def cronInit : CronState :=
  { nextID := 0, live := [], entries := fun _ => none }

/-- `cron.Remove(entryID)`: the engine drops the trigger with that id. -/
def cronRemove (eid : Nat) (s : CronState) : CronState :=
  { s with live := s.live.filter (fun p => !(p.1 == eid)) }

/-- `cron.AddFunc`: on a valid schedule expression a fresh `EntryID` is
allocated and the trigger registered; on a parse error nothing is
registered. -/
def cronAddFunc (tid : Nat) (valid : Bool) (s : CronState) : Option Nat × CronState :=
  if valid then
    (some s.nextID, { s with nextID := s.nextID + 1, live := s.live ++ [(s.nextID, tid)] })
  else (none, s)

/-- `CronManager.AddTask` (cron.go lines 49-81), job-table part: retire
the previously recorded trigger for the task id if present, register a new
trigger, and on success record its id under the task id (on an `AddFunc`
error the function returns early, leaving the table entry as it was).
The external `updateSystemCron` call is modelled separately. -/
def AddTask (tid : Nat) (valid : Bool) (s : CronState) : CronState :=
  let s1 :=
    match s.entries tid with
    | some eid => cronRemove eid s
    | none => s
  match cronAddFunc tid valid s1 with
  | (some eid, s2) => { s2 with entries := fun t => if t = tid then some eid else s2.entries t }
  | (none, s2) => s2

/-- `CronManager.RemoveTask` (cron.go lines 83-92), job-table part: retire
the trigger if present and drop the identifier from the table. -/
def RemoveTask (tid : Nat) (s : CronState) : CronState :=
  match s.entries tid with
  | some eid =>
    let s1 := cronRemove eid s
    { s1 with entries := fun t => if t = tid then none else s1.entries t }
  | none => s

/-- One manager operation: add/replace a task (with the `AddFunc` outcome)
or remove a task id. -/
inductive SchedOp where
  | add (tid : Nat) (valid : Bool)
  | remove (tid : Nat)

/-- Run a sequence of manager operations. -/
def runSched : List SchedOp → CronState → CronState
  | [], s => s
  | op :: ops, s =>
    runSched ops
      (match op with
       | .add tid valid => AddTask tid valid s
       | .remove tid => RemoveTask tid s)

/-! ### System crontab synchronization (cron.go lines 94-160) -/

/-- Whether the first list is a character-wise prefix of the second. -/
def startsWithL : List Char → List Char → Bool
  | [], _ => true
  | p :: ps, l =>
    match l with
    | [] => false
    | c :: cs => p == c && startsWithL ps cs

/-- Substring containment, the model of `strings.Contains(line, marker)`. -/
def containsSub : List Char → List Char → Bool
  | needle, [] => needle.isEmpty
  | needle, c :: cs => startsWithL needle (c :: cs) || containsSub needle cs

/-- Whitespace per `strings.Fields` (ASCII part of `unicode.IsSpace`). -/
def isSpaceChar (c : Char) : Bool :=
  c == '\t' || c == '\n' || c == '\u000b' || c == '\u000c' || c == '\r' || c == ' '

/-- Worker for `fields`: split on whitespace runs, accumulating the
current field in reverse. -/
def fieldsGo : List Char → List Char → List (List Char)
  | [], acc => if acc.isEmpty then [] else [acc.reverse]
  | c :: cs, acc =>
    if isSpaceChar c then
      if acc.isEmpty then fieldsGo cs [] else acc.reverse :: fieldsGo cs []
    else fieldsGo cs (c :: acc)

/-- `strings.Fields`: the whitespace-separated fields of the string. -/
def fields (cs : List Char) : List (List Char) :=
  fieldsGo cs []

/-- `strings.Join(ls, sep)` for a one-character separator. -/
def joinSep (sep : Char) : List (List Char) → List Char
  | [] => []
  | [l] => l
  | l :: ls => l ++ sep :: joinSep sep ls

/-- `strings.Split(s, "\n")`: newline-separated pieces, keeping empties
(the empty string yields one empty piece). -/
def splitOnNl : List Char → List (List Char)
  | [] => [[]]
  | c :: cs =>
    if c = '\n' then [] :: splitOnNl cs
    else
      match splitOnNl cs with
      | l :: ls => (c :: l) :: ls
      | [] => [[c]]

/-- Marker substring identifying the crontab lines of a task (cron.go lines
119 and 145): `fmt.Sprintf("--task-id %d", taskID)`. -/
def markerOf (tid : Nat) : List Char :=
  "--task-id ".data ++ (Nat.repr tid).data

/-- Schedule expression projected to the 5-field system-cron format
(cron.go lines 100-105): a 6-field expression has its leading seconds
field stripped, anything else is passed through unchanged. -/
def externalCronExpr (scheduleCron : String) : List Char :=
  if (fields scheduleCron.data).length = 6 then
    joinSep ' ' ((fields scheduleCron.data).drop 1)
  else scheduleCron.data

/-- Crontab line written for a task (cron.go lines 107-108):
`fmt.Sprintf("%s %s --task-id %d", cronExpr, execPath, taskID)` with
`execPath = "/usr/bin/backup-server-agent"`. -/
def cronLineOf (task : Task) : List Char :=
  externalCronExpr task.scheduleCron ++
    " /usr/bin/backup-server-agent --task-id ".data ++ (Nat.repr task.taskID).data

/-- `CronManager.updateSystemCron` (cron.go lines 94-137) as a text
transformation on the crontab contents: split into lines, drop every line
containing the task marker, append the new line, join with newlines and
a trailing newline. -/
def updateSystemCron (task : Task) (content : List Char) : List Char :=
  joinSep '\n'
    ((splitOnNl content).filter (fun l => !containsSub (markerOf task.taskID) l) ++
      [cronLineOf task]) ++ ['\n']

/-- `CronManager.removeFromSystemCron` (cron.go lines 139-160): drop every
line containing the task marker and write the rest back. -/
def removeFromSystemCron (tid : Nat) (content : List Char) : List Char :=
  joinSep '\n' ((splitOnNl content).filter (fun l => !containsSub (markerOf tid) l)) ++ ['\n']

/-- Number of crontab lines containing the marker of a task. -/
def markedLineCount (tid : Nat) (content : List Char) : Nat :=
  ((splitOnNl content).filter (fun l => containsSub (markerOf tid) l)).length

/-! ## Helper lemmas -/

theorem walkRun_countFilesFn (visits : List WalkEntry) (n : Nat) :
    walkRun countFilesFn n visits =
      n + (visits.filter (fun v => !v.err && v.isRegular)).length := by
  induction visits generalizing n with
  | nil => simp [walkRun]
  | cons v vs ih =>
    cases h : (!v.err && v.isRegular) with
    | true => simp [walkRun, countFilesFn, h, ih]; omega
    | false => simp [walkRun, countFilesFn, h, ih]

/-! ## C10 -/

/-- C10: `countFiles` is total and never reports an error: for every visit
sequence it returns the (non-negative) number of error-free regular-file
visits — entries that fail to stat are excluded and never abort the walk
(the callback always returns nil) — and for a missing path, whose walk
yields a single erroring visit, it returns 0. -/
theorem countFiles_total_and_skips_errors :
    (∀ visits : List WalkEntry,
       countFiles visits = (visits.filter (fun v => !v.err && v.isRegular)).length) ∧
    (∀ b : Bool, countFiles [{ err := true, isRegular := b }] = 0) := by
  refine ⟨fun visits => ?_, fun b => ?_⟩
  · simpa using walkRun_countFilesFn visits 0
  · cases b <;> rfl

/-! ## C9 -/

/-- C9: the list transformation of `UpdateBackupRecord` modifies at most the
first record whose archive name matches — records before it are returned
unchanged, the match gets exactly the destination path, upload timestamp
and status `"success"` (all other fields unchanged, as the `applyUpload`
frame facts state), records after it are unchanged — and when no record
matches the ledger is rewritten unchanged. -/
theorem updateRecords_frame :
    (∀ (n p : String) (d : Nat) (recs : List BackupRecord),
       updateRecords n p d recs =
         recs.takeWhile (fun r => !(r.archiveName == n)) ++
           (match recs.dropWhile (fun r => !(r.archiveName == n)) with
            | [] => []
            | r :: rs => applyUpload p d r :: rs)) ∧
    (∀ (n p : String) (d : Nat) (recs : List BackupRecord),
       (∀ r ∈ recs, r.archiveName ≠ n) → updateRecords n p d recs = recs) ∧
    (∀ (p : String) (d : Nat) (r : BackupRecord),
       (applyUpload p d r).sourcePath = r.sourcePath ∧
       (applyUpload p d r).archiveName = r.archiveName ∧
       (applyUpload p d r).backupDate = r.backupDate ∧
       (applyUpload p d r).archiveSizeMB = r.archiveSizeMB ∧
       (applyUpload p d r).s3Path = p ∧
       (applyUpload p d r).s3UploadDate = some d ∧
       (applyUpload p d r).status = "success") := by
  refine ⟨fun n p d recs => ?_, fun n p d recs h => ?_, fun p d r => ?_⟩
  · induction recs with
    | nil => rfl
    | cons r rs ih =>
      cases h : (r.archiveName == n) with
      | true => simp [updateRecords, h]
      | false => simp [updateRecords, h, ih]
  · induction recs with
    | nil => rfl
    | cons r rs ih =>
      have hr : (r.archiveName == n) = false := by
        simpa using h r (List.mem_cons_self r rs)
      simp only [updateRecords, hr, Bool.false_eq_true, if_false]
      rw [ih (fun q hq => h q (List.mem_cons_of_mem r hq))]
  · exact ⟨rfl, rfl, rfl, rfl, rfl, rfl, rfl⟩

/-- Witness for C9: the no-match clause at a concrete ledger. -/
theorem updateRecords_frame_witness :
    updateRecords "a.tar.gz" "s3://b/a.tar.gz" 5 [] = [] :=
  updateRecords_frame.2.1 "a.tar.gz" "s3://b/a.tar.gz" 5 [] (by simp)

/-! ## C8 -/

/-- Invariant of the cron manager relating the registered engine triggers
to the manager job table. -/
def CronInv (s : CronState) : Prop :=
  (∀ p ∈ s.live, p.1 < s.nextID) ∧
  s.live.Pairwise (fun a b => a.1 ≠ b.1) ∧
  (∀ p ∈ s.live, s.entries p.2 = some p.1)

theorem cronInv_init : CronInv cronInit := by
  refine ⟨?_, ?_, ?_⟩ <;> simp [cronInit]

theorem cronRemove_live_subset {eid : Nat} {s : CronState} {p : Nat × Nat}
    (hp : p ∈ (cronRemove eid s).live) : p ∈ s.live ∧ p.1 ≠ eid := by
  have h := List.mem_filter.mp hp
  refine ⟨h.1, ?_⟩
  simpa using h.2

theorem cronInv_addTask {s : CronState} (h : CronInv s) (tid : Nat) (valid : Bool) :
    CronInv (AddTask tid valid s) := by
  obtain ⟨h1, h2, h3⟩ := h
  unfold AddTask cronAddFunc
  cases he : s.entries tid with
  | some eid =>
    cases valid with
    | false =>
      simp only [Bool.false_eq_true, if_false]
      refine ⟨?_, ?_, ?_⟩
      · intro p hp; exact h1 p (cronRemove_live_subset hp).1
      · exact h2.filter _
      · intro p hp; exact h3 p (cronRemove_live_subset hp).1
    | true =>
      simp only [if_pos rfl]
      refine ⟨?_, ?_, ?_⟩
      · intro p hp
        rcases List.mem_append.mp hp with hp' | hp'
        · exact Nat.lt_succ_of_lt (h1 p (cronRemove_live_subset hp').1)
        · simp only [List.mem_singleton] at hp'
          subst hp'
          exact Nat.lt_succ_self _
      · refine List.pairwise_append.mpr ⟨h2.filter _, List.pairwise_singleton _ _, ?_⟩
        intro a ha b hb
        simp only [List.mem_singleton] at hb
        subst hb
        exact Nat.ne_of_lt (h1 a (cronRemove_live_subset ha).1)
      · intro p hp
        rcases List.mem_append.mp hp with hp' | hp'
        · obtain ⟨hmem, hne⟩ := cronRemove_live_subset hp'
          have hp3 := h3 p hmem
          by_cases ht : p.2 = tid
          · exfalso
            rw [ht, he] at hp3
            exact hne (Option.some.inj hp3).symm
          · simpa [ht] using hp3
        · simp only [List.mem_singleton] at hp'
          subst hp'
          simp
  | none =>
    have hnone : ∀ p ∈ s.live, p.2 ≠ tid := by
      intro p hp ht
      have := h3 p hp
      rw [ht, he] at this
      exact Option.noConfusion this
    cases valid with
    | false => simpa only [Bool.false_eq_true, if_false] using ⟨h1, h2, h3⟩
    | true =>
      simp only [if_pos rfl]
      refine ⟨?_, ?_, ?_⟩
      · intro p hp
        rcases List.mem_append.mp hp with hp' | hp'
        · exact Nat.lt_succ_of_lt (h1 p hp')
        · simp only [List.mem_singleton] at hp'
          subst hp'
          exact Nat.lt_succ_self _
      · refine List.pairwise_append.mpr ⟨h2, List.pairwise_singleton _ _, ?_⟩
        intro a ha b hb
        simp only [List.mem_singleton] at hb
        subst hb
        exact Nat.ne_of_lt (h1 a ha)
      · intro p hp
        rcases List.mem_append.mp hp with hp' | hp'
        · have := h3 p hp'
          have hne := hnone p hp'
          simpa [hne] using this
        · simp only [List.mem_singleton] at hp'
          subst hp'
          simp

theorem cronInv_removeTask {s : CronState} (h : CronInv s) (tid : Nat) :
    CronInv (RemoveTask tid s) := by
  obtain ⟨h1, h2, h3⟩ := h
  unfold RemoveTask
  cases he : s.entries tid with
  | none => exact ⟨h1, h2, h3⟩
  | some eid =>
    refine ⟨?_, ?_, ?_⟩
    · intro p hp; exact h1 p (cronRemove_live_subset hp).1
    · exact h2.filter _
    · intro p hp
      obtain ⟨hmem, hne⟩ := cronRemove_live_subset hp
      have hp3 := h3 p hmem
      by_cases ht : p.2 = tid
      · exfalso
        rw [ht, he] at hp3
        exact hne (Option.some.inj hp3).symm
      · simpa [ht] using hp3

theorem cronInv_runSched (ops : List SchedOp) :
    ∀ s : CronState, CronInv s → CronInv (runSched ops s) := by
  induction ops with
  | nil => intro s h; exact h
  | cons op ops ih =>
    intro s h
    cases op with
    | add tid valid => exact ih _ (cronInv_addTask h tid valid)
    | remove tid => exact ih _ (cronInv_removeTask h tid)

theorem countP_taskId_le_one {l : List (Nat × Nat)} {tid e : Nat}
    (hpw : l.Pairwise (fun a b => a.1 ≠ b.1))
    (hall : ∀ p ∈ l, p.2 = tid → p.1 = e) :
    l.countP (fun p => p.2 == tid) ≤ 1 := by
  induction l with
  | nil => simp
  | cons p l ih =>
    cases hpt : (p.2 == tid) with
    | true =>
      have hzero : l.countP (fun q => q.2 == tid) = 0 := by
        rw [List.countP_eq_zero]
        intro q hq hqt
        have hq2 : q.2 = tid := by simpa using hqt
        have hp2 : p.2 = tid := by simpa using hpt
        have hqe := hall q (List.mem_cons_of_mem p hq) hq2
        have hpe := hall p (List.mem_cons_self p l) hp2
        exact (List.rel_of_pairwise_cons hpw hq) (hpe.trans hqe.symm)
      simp [List.countP_cons, hpt, hzero]
    | false =>
      have := ih hpw.of_cons (fun q hq => hall q (List.mem_cons_of_mem p hq))
      simpa [List.countP_cons, hpt] using this

/-- C8: starting from a fresh manager, after any sequence of
`AddTask`/`RemoveTask` operations the engine holds at most one live
trigger for any task identifier — `AddTask` retires the previously
recorded trigger before installing a new one, and `RemoveTask` retires
the trigger and drops the identifier from the table. -/
theorem cron_at_most_one_live_trigger :
    ∀ (ops : List SchedOp) (tid : Nat),
      ((runSched ops cronInit).live.countP (fun p => p.2 == tid)) ≤ 1 := by
  intro ops tid
  obtain ⟨h1, h2, h3⟩ := cronInv_runSched ops cronInit cronInv_init
  cases he : (runSched ops cronInit).entries tid with
  | none =>
    have : (runSched ops cronInit).live.countP (fun p => p.2 == tid) = 0 := by
      rw [List.countP_eq_zero]
      intro p hp hpt
      have hp2 : p.2 = tid := by simpa using hpt
      have := h3 p hp
      rw [hp2, he] at this
      exact Option.noConfusion this
    omega
  | some e =>
    refine countP_taskId_le_one (e := e) h2 (fun p hp hpt => ?_)
    have := h3 p hp
    rw [hpt, he] at this
    exact (Option.some.inj this).symm

/-! ## C3 -/

/-- Error component of an upload outcome. -/
def errOf : Except String String → Option String
  | .error e => some e
  | .ok _ => none

/-- Modelled from the words of the spec (§4.4, §7), for comparison with the
code: the first hard failure of a run is the archive-build failure when
archiving was requested and failed; otherwise, when destination storage is
configured, the failure of the upload (of the archive, or of the source
directory when no archive was produced); otherwise there is none. -/
def specFirstHardFailure (task : Task) (serverIP : String) (w : World) : Option String :=
  if task.createArchive then
    match createArchive task.sourcePath task.archiveFormat serverIP w with
    | .error e => some e
    | .ok pn =>
      if s3Configured task then errOf (uploadToS3 task pn.1 w.s3).1 else none
  else
    if s3Configured task then errOf (uploadDirectoryToS3 task task.sourcePath w.s3).1
    else none

theorem tmp_append_ne_empty (x : String) : ("/tmp/" ++ x) ≠ "" := by
  intro h
  have h2 : ("/tmp/" ++ x).data = "".data := congrArg String.data h
  have h3 : ("/tmp/" ++ x).data = '/' :: ("tmp/".data ++ x.data) := rfl
  rw [h3] at h2
  exact List.noConfusion h2

theorem archivePathOf_ne_empty (a b c d : String) : archivePathOf a b c d ≠ "" :=
  tmp_append_ne_empty (archiveNameOf a b c d)

theorem cleanupPhase_err (task : Task) (res : BackupResult) (w : World) (s : RunState) :
    (cleanupPhase task res w s).2.1 = none := rfl

theorem uploadPhase_err (task : Task) (an : String) (res : BackupResult)
    (w : World) (s : RunState) :
    (uploadPhase task an res w s).2.1 =
      if s3Configured task then
        if res.archivePath ≠ "" then errOf (uploadToS3 task res.archivePath w.s3).1
        else errOf (uploadDirectoryToS3 task task.sourcePath w.s3).1
      else none := by
  unfold uploadPhase
  by_cases h1 : s3Configured task
  · simp only [if_pos h1]
    by_cases h2 : res.archivePath ≠ ""
    · simp only [if_pos h2]
      cases hu : (uploadToS3 task res.archivePath w.s3).1 with
      | error e => simp [errOf]
      | ok sp => simp [errOf, cleanupPhase_err]
    · simp only [if_neg h2]
      cases hu : (uploadDirectoryToS3 task task.sourcePath w.s3).1 with
      | error e => simp [errOf]
      | ok sp => simp [errOf, cleanupPhase_err]
  · simp only [if_neg h1]
    exact cleanupPhase_err task res w s

theorem executeBody_err (task : Task) (serverIP : String) (w : World) (s : RunState) :
    (executeBody task serverIP w s).2.1 = specFirstHardFailure task serverIP w := by
  unfold executeBody specFirstHardFailure
  cases hc : task.createArchive with
  | false =>
    simp only [Bool.false_eq_true, if_false]
    rw [uploadPhase_err]
    simp
  | true =>
    simp only [if_true]
    cases hb : w.archiveBuildErr with
    | some e => simp [createArchive, hb]
    | none =>
      simp only [createArchive, hb]
      rw [uploadPhase_err]
      have hne := archivePathOf_ne_empty task.sourcePath task.archiveFormat serverIP w.timestamp
      simp [hne]

/-- C3: the error `ExecuteBackup` returns is exactly the first hard
failure — the archive-build error, else the upload error — independent of
every soft-failure oracle (ledger save/update, stat, local archive
removal, cleanup sweep, docker stop/start), which therefore can never
cause the run to return an error.  The right-hand side
`specFirstHardFailure` does not read any of the soft oracles. -/
theorem executeBackup_error_is_first_hard_failure :
    ∀ (task : Task) (serverIP : String) (w : World) (s : RunState),
      (ExecuteBackup task serverIP w s).2.1 = specFirstHardFailure task serverIP w := by
  intro task serverIP w s
  unfold ExecuteBackup
  by_cases hd : dockerGuard task
  · simp only [if_pos hd]
    exact executeBody_err task serverIP w _
  · simp only [if_neg hd]
    exact executeBody_err task serverIP w s

/-! ## C1 -/

/-- Ledger record written at archive-creation time (backup.go lines
78-84): size 0, no upload data, status `"creating"`. -/
def creatingRecordOf (task : Task) (serverIP : String) (w : World) : BackupRecord :=
  { sourcePath := task.sourcePath,
    archiveName := archiveNameOf task.sourcePath task.archiveFormat serverIP w.timestamp,
    backupDate := w.now, s3UploadDate := none, archiveSizeMB := 0,
    s3Path := "", status := "creating" }

/-- System state after the archive-creation phase: the archive file
exists locally and, when the ledger write succeeded, the `creating` record
has been appended. -/
def stateAfterArchive (task : Task) (serverIP : String) (w : World) (s : RunState) : RunState :=
  let s1 := { s with
    localFiles := archivePathOf task.sourcePath task.archiveFormat serverIP w.timestamp :: s.localFiles,
    events := s.events ++
      [Event.archiveCreated (archivePathOf task.sourcePath task.archiveFormat serverIP w.timestamp)] }
  match w.saveRecordErr with
  | none => { s1 with ledger := s1.ledger ++ [creatingRecordOf task serverIP w],
                      events := s1.events ++ [Event.ledgerSave] }
  | some _ => s1

theorem executeBody_archive_ok (task : Task) (serverIP : String) (w : World) (s : RunState)
    (hc : task.createArchive = true) (hb : w.archiveBuildErr = none) :
    executeBody task serverIP w s =
      uploadPhase task (archiveNameOf task.sourcePath task.archiveFormat serverIP w.timestamp)
        { archivePath := archivePathOf task.sourcePath task.archiveFormat serverIP w.timestamp,
          archiveSize := w.statResult.getD 0,
          filesCount := countFiles w.sourceWalk }
        w (stateAfterArchive task serverIP w s) := by
  unfold executeBody createArchive stateAfterArchive
  rw [hc, hb]
  cases hsv : w.saveRecordErr <;> cases hst : w.statResult <;> rfl

theorem uploadPhase_upload_error (task : Task) (an : String) (res : BackupResult)
    (w : World) (s : RunState) (e : String)
    (hs3 : s3Configured task) (hne : res.archivePath ≠ "")
    (hu : (uploadToS3 task res.archivePath w.s3).1 = .error e) :
    uploadPhase task an res w s =
      ({ res with error := "Failed to upload to S3: " ++ e }, some e,
       { s with events := s.events ++ [Event.uploadArchive] }) := by
  unfold uploadPhase
  rw [if_pos hs3, if_pos hne, hu]

theorem executeBody_upload_error (task : Task) (serverIP : String) (w : World)
    (s : RunState) (e : String)
    (hc : task.createArchive = true) (hb : w.archiveBuildErr = none)
    (hs3 : s3Configured task)
    (hu : (uploadToS3 task
            (archivePathOf task.sourcePath task.archiveFormat serverIP w.timestamp) w.s3).1 =
          .error e) :
    executeBody task serverIP w s =
      ({ archivePath := archivePathOf task.sourcePath task.archiveFormat serverIP w.timestamp,
         archiveSize := w.statResult.getD 0,
         filesCount := countFiles w.sourceWalk,
         error := "Failed to upload to S3: " ++ e },
       some e,
       { stateAfterArchive task serverIP w s with
         events := (stateAfterArchive task serverIP w s).events ++ [Event.uploadArchive] }) := by
  rw [executeBody_archive_ok _ _ _ _ hc hb]
  exact uploadPhase_upload_error _ _ _ _ _ e hs3
    (archivePathOf_ne_empty task.sourcePath task.archiveFormat serverIP w.timestamp) hu

/-- C1: for a task with archiving and destination storage configured, when
the archive build succeeds but the upload fails, `ExecuteBackup` returns
exactly the upload failure, the local archive file is still present (no
removal happened), and the ledger still holds whatever the creation phase
wrote: the appended record (when the ledger write succeeded) has status
`"creating"` and no upload data, and no ledger update took place. -/
theorem upload_failure_keeps_archive_and_creating_record
    (task : Task) (serverIP : String) (w : World) (s : RunState) (e : String)
    (hc : task.createArchive = true) (hs3 : s3Configured task)
    (hb : w.archiveBuildErr = none)
    (hu : (uploadToS3 task
            (archivePathOf task.sourcePath task.archiveFormat serverIP w.timestamp) w.s3).1 =
          .error e) :
    (ExecuteBackup task serverIP w s).2.1 = some e ∧
    archivePathOf task.sourcePath task.archiveFormat serverIP w.timestamp ∈
      (ExecuteBackup task serverIP w s).2.2.localFiles ∧
    (ExecuteBackup task serverIP w s).2.2.ledger =
      s.ledger ++ (if w.saveRecordErr = none then [creatingRecordOf task serverIP w] else []) ∧
    (creatingRecordOf task serverIP w).status = "creating" ∧
    (creatingRecordOf task serverIP w).s3UploadDate = none := by
  unfold ExecuteBackup
  by_cases hd : dockerGuard task
  · simp only [if_pos hd]
    rw [executeBody_upload_error task serverIP w
      { s with events := s.events ++ [Event.dockerStop] } e hc hb hs3 hu]
    unfold stateAfterArchive
    cases hsv : w.saveRecordErr <;> simp [creatingRecordOf, hsv]
  · simp only [if_neg hd]
    rw [executeBody_upload_error task serverIP w s e hc hb hs3 hu]
    unfold stateAfterArchive
    cases hsv : w.saveRecordErr <;> simp [creatingRecordOf, hsv]

/-! ## C2 -/

/-- Event list `l'` extends `l` by events of the run body only — no
docker stop/start signal is among the appended events. -/
def BodyTail (l l' : List Event) : Prop :=
  ∃ tail, l' = l ++ tail ∧ Event.dockerStart ∉ tail ∧ Event.dockerStop ∉ tail

theorem BodyTail.refl (l : List Event) : BodyTail l l :=
  ⟨[], by simp, by simp, by simp⟩

theorem BodyTail.add (l : List Event) (xs : List Event)
    (h1 : Event.dockerStart ∉ xs) (h2 : Event.dockerStop ∉ xs) :
    BodyTail l (l ++ xs) :=
  ⟨xs, rfl, h1, h2⟩

theorem BodyTail.trans {a b c : List Event} (h1 : BodyTail a b) (h2 : BodyTail b c) :
    BodyTail a c := by
  obtain ⟨t1, rfl, h1s, h1p⟩ := h1
  obtain ⟨t2, rfl, h2s, h2p⟩ := h2
  exact ⟨t1 ++ t2, by simp, by simp [h1s, h2s], by simp [h1p, h2p]⟩

theorem cleanupPhase_events (task : Task) (res : BackupResult) (w : World) (s : RunState) :
    BodyTail s.events (cleanupPhase task res w s).2.2.events := by
  unfold cleanupPhase
  by_cases h : task.cleanupEnabled
  · simpa [h] using BodyTail.add s.events [Event.cleanup] (by simp) (by simp)
  · simpa [h] using BodyTail.refl s.events

theorem uploadPhase_events (task : Task) (an : String) (res : BackupResult)
    (w : World) (s : RunState) :
    BodyTail s.events (uploadPhase task an res w s).2.2.events := by
  unfold uploadPhase
  by_cases h1 : s3Configured task
  · simp only [if_pos h1]
    by_cases h2 : res.archivePath ≠ ""
    · simp only [if_pos h2]
      cases hu : (uploadToS3 task res.archivePath w.s3).1 with
      | error e =>
        simpa using BodyTail.add s.events [Event.uploadArchive] (by simp) (by simp)
      | ok sp =>
        refine BodyTail.trans
          (BodyTail.add s.events [Event.uploadArchive] (by simp) (by simp)) ?_
        cases hup : w.updateRecordErr with
        | none =>
          refine BodyTail.trans
            (BodyTail.add _ [Event.ledgerUpdate] (by simp) (by simp)) ?_
          cases hrm : w.removeErr with
          | none =>
            refine BodyTail.trans
              (BodyTail.add _ [Event.removeLocal res.archivePath] (by simp) (by simp)) ?_
            simpa using cleanupPhase_events task _ w _
          | some e2 => simpa using cleanupPhase_events task _ w _
        | some e2 =>
          cases hrm : w.removeErr with
          | none =>
            refine BodyTail.trans
              (BodyTail.add _ [Event.removeLocal res.archivePath] (by simp) (by simp)) ?_
            simpa using cleanupPhase_events task _ w _
          | some e3 => simpa using cleanupPhase_events task _ w _
    · simp only [if_neg h2]
      cases hu : (uploadDirectoryToS3 task task.sourcePath w.s3).1 with
      | error e =>
        simpa using BodyTail.add s.events [Event.uploadDirectory] (by simp) (by simp)
      | ok sp =>
        refine BodyTail.trans
          (BodyTail.add s.events [Event.uploadDirectory] (by simp) (by simp)) ?_
        simpa using cleanupPhase_events task _ w _
  · simp only [if_neg h1]
    exact cleanupPhase_events task res w s

theorem executeBody_events (task : Task) (serverIP : String) (w : World) (s : RunState) :
    BodyTail s.events (executeBody task serverIP w s).2.2.events := by
  cases hc : task.createArchive with
  | false =>
    unfold executeBody
    rw [hc]
    simp only [Bool.false_eq_true, if_false]
    exact uploadPhase_events task "" _ w s
  | true =>
    cases hb : w.archiveBuildErr with
    | some e =>
      unfold executeBody createArchive
      rw [hc, hb]
      exact BodyTail.refl s.events
    | none =>
      rw [executeBody_archive_ok task serverIP w s hc hb]
      refine BodyTail.trans ?_
        (uploadPhase_events task _ _ w (stateAfterArchive task serverIP w s))
      unfold stateAfterArchive
      cases hsv : w.saveRecordErr with
      | none =>
        simpa using BodyTail.add s.events
          [Event.archiveCreated
            (archivePathOf task.sourcePath task.archiveFormat serverIP w.timestamp),
           Event.ledgerSave] (by simp) (by simp)
      | some e2 =>
        simpa using BodyTail.add s.events
          [Event.archiveCreated
            (archivePathOf task.sourcePath task.archiveFormat serverIP w.timestamp)]
          (by simp) (by simp)

/-- C2 (amended): for every task with docker lifecycle enabled and a
compose path set, the stop signal is the first event of the run and the
restart signal is the *last* — the restart is deferred to function exit,
so upload and cleanup run *before* the service is signaled back up, not
after.  No other docker signal occurs in between. -/
theorem docker_restart_signaled_last
    (task : Task) (serverIP : String) (w : World) (s : RunState)
    (hd : dockerGuard task) :
    ∃ mid : List Event,
      (ExecuteBackup task serverIP w s).2.2.events =
        s.events ++ Event.dockerStop :: mid ++ [Event.dockerStart] ∧
      Event.dockerStart ∉ mid ∧ Event.dockerStop ∉ mid := by
  unfold ExecuteBackup
  simp only [if_pos hd]
  obtain ⟨tail, heq, hns, hnp⟩ :=
    executeBody_events task serverIP w { s with events := s.events ++ [Event.dockerStop] }
  refine ⟨tail, ?_, hns, hnp⟩
  simp only [heq]
  simp

/-! ## C7 -/

theorem updateRecords_append_match (n p : String) (d : Nat) (l : List BackupRecord)
    (r : BackupRecord) (hl : ∀ q ∈ l, q.archiveName ≠ n) (hr : r.archiveName = n) :
    updateRecords n p d (l ++ [r]) = l ++ [applyUpload p d r] := by
  induction l with
  | nil => simp [updateRecords, hr]
  | cons q l ih =>
    have hq : (q.archiveName == n) = false := by
      simpa using hl q (List.mem_cons_self q l)
    simp only [List.cons_append, updateRecords, hq, Bool.false_eq_true, if_false,
      List.append_eq]
    rw [ih (fun x hx => hl x (List.mem_cons_of_mem q hx))]

theorem uploadPhase_upload_ok_ledger (task : Task) (an : String) (res : BackupResult)
    (w : World) (s : RunState) (sp : String)
    (hs3 : s3Configured task) (hne : res.archivePath ≠ "")
    (hu : (uploadToS3 task res.archivePath w.s3).1 = .ok sp)
    (hupd : w.updateRecordErr = none) :
    (uploadPhase task an res w s).2.2.ledger = updateRecords an sp w.now s.ledger := by
  unfold uploadPhase
  rw [if_pos hs3, if_pos hne, hu, hupd]
  cases hrm : w.removeErr <;> by_cases hcl : task.cleanupEnabled <;>
    simp [cleanupPhase, hcl]

theorem executeBody_upload_ok_ledger (task : Task) (serverIP : String) (w : World)
    (s : RunState) (sp : String)
    (hc : task.createArchive = true) (hb : w.archiveBuildErr = none)
    (hs3 : s3Configured task) (hupd : w.updateRecordErr = none)
    (hu : (uploadToS3 task
            (archivePathOf task.sourcePath task.archiveFormat serverIP w.timestamp) w.s3).1 =
          .ok sp) :
    (executeBody task serverIP w s).2.2.ledger =
      updateRecords (archiveNameOf task.sourcePath task.archiveFormat serverIP w.timestamp)
        sp w.now (stateAfterArchive task serverIP w s).ledger := by
  rw [executeBody_archive_ok task serverIP w s hc hb]
  exact uploadPhase_upload_ok_ledger _ _ _ _ _ _ hs3
    (archivePathOf_ne_empty task.sourcePath task.archiveFormat serverIP w.timestamp) hu hupd

theorem executeBackup_ledger (task : Task) (serverIP : String) (w : World) (s : RunState) :
    (ExecuteBackup task serverIP w s).2.2.ledger =
      (executeBody task serverIP w
        (if dockerGuard task then { s with events := s.events ++ [Event.dockerStop] } else s)
        ).2.2.ledger := by
  unfold ExecuteBackup
  by_cases hd : dockerGuard task <;> simp [hd]

/-- C7 (amended): for an archived run whose upload succeeds, the persisted
record is mutated only *once* after its creation with status `"creating"`:
the upload update sets destination path, upload timestamp and status
`"success"`.  The archive-size backfill of step 2 happens only on an
in-memory slice that is never written back, so the final record on disk
carries `archiveSizeMB = 0` (the value persisted at creation), not the
size obtained from the stat. -/
theorem ledger_record_mutated_once_size_not_persisted
    (task : Task) (serverIP : String) (w : World) (s : RunState) (sp : String)
    (hc : task.createArchive = true) (hs3 : s3Configured task)
    (hb : w.archiveBuildErr = none) (hsv : w.saveRecordErr = none)
    (hupd : w.updateRecordErr = none)
    (hu : (uploadToS3 task
            (archivePathOf task.sourcePath task.archiveFormat serverIP w.timestamp) w.s3).1 =
          .ok sp)
    (hfresh : ∀ r ∈ s.ledger,
      r.archiveName ≠ archiveNameOf task.sourcePath task.archiveFormat serverIP w.timestamp) :
    (ExecuteBackup task serverIP w s).2.2.ledger =
      s.ledger ++ [applyUpload sp w.now (creatingRecordOf task serverIP w)] ∧
    (applyUpload sp w.now (creatingRecordOf task serverIP w)).archiveSizeMB = 0 ∧
    (applyUpload sp w.now (creatingRecordOf task serverIP w)).status = "success" ∧
    (applyUpload sp w.now (creatingRecordOf task serverIP w)).s3Path = sp ∧
    (applyUpload sp w.now (creatingRecordOf task serverIP w)).s3UploadDate = some w.now := by
  refine ⟨?_, rfl, rfl, rfl, rfl⟩
  rw [executeBackup_ledger]
  rw [executeBody_upload_ok_ledger task serverIP w _ sp hc hb hs3 hupd hu]
  unfold stateAfterArchive
  rw [hsv]
  by_cases hd : dockerGuard task
  · simp only [if_pos hd]
    exact updateRecords_append_match _ _ _ _ _ hfresh rfl
  · simp only [if_neg hd]
    exact updateRecords_append_match _ _ _ _ _ hfresh rfl

/-! ## C5 -/

/-- C5 (amended): when the bucket-existence check reports the bucket
absent and the bucket-create call fails — *including* with an
"already exists" error raised when another actor created the bucket in
between — both upload entry points return the create error and never
reach the object write: the operation trace stops at
`[bucketExistsCheck, makeBucket]` with no `putObject`. -/
theorem makeBucket_error_aborts_upload (task : Task) (path : String) (w : S3World)
    (e : String) (hc : w.clientErr = none) (hb : w.bucketExistsResult = .ok false)
    (hm : w.makeBucketErr = some e) :
    (uploadToS3 task path w).1 = .error ("failed to create bucket: " ++ e) ∧
    (uploadToS3 task path w).2 = [S3Op.bucketExistsCheck, S3Op.makeBucket] ∧
    (uploadDirectoryToS3 task path w).1 = .error ("failed to create bucket: " ++ e) ∧
    (uploadDirectoryToS3 task path w).2 = [S3Op.bucketExistsCheck, S3Op.makeBucket] := by
  unfold uploadToS3 uploadDirectoryToS3 ensureBucket ensureBucketOps
  rw [hc, hb, hm]
  simp

/-! ## C6 -/

theorem cleanupSweep_only_removes (c : Int) (os : List S3Object) :
    S3Op.bucketExistsCheck ∉ cleanupSweep c os := by
  induction os with
  | nil => simp [cleanupSweep]
  | cons o os ih =>
    unfold cleanupSweep
    by_cases h1 : o.err
    · simpa [h1] using ih
    · by_cases h2 : o.lastModified < c <;> simp [h1, h2, ih]

/-- C6 (amended): the two *upload* entry points check bucket existence
before any object write — the first S3 operation either issues is the
existence check, and when the bucket is absent it is created (with the
configured region) before any `putObject` — but the *cleanup sweep does
not*: `cleanupOldBackups` never issues a bucket-existence check; it lists
and deletes objects directly. -/
theorem bucket_check_scope
    (task : Task) (path : String) (w : S3World)
    (hc : w.clientErr = none) :
    ((uploadToS3 task path w).2.head? = some S3Op.bucketExistsCheck ∧
     (uploadDirectoryToS3 task path w).2.head? = some S3Op.bucketExistsCheck) ∧
    (w.bucketExistsResult = .ok false → w.makeBucketErr = none →
      (∃ rest, (uploadToS3 task path w).2 =
        S3Op.bucketExistsCheck :: S3Op.makeBucket :: rest) ∧
      (∃ rest, (uploadDirectoryToS3 task path w).2 =
        S3Op.bucketExistsCheck :: S3Op.makeBucket :: rest)) ∧
    S3Op.bucketExistsCheck ∉ (cleanupOldBackups task w).2 := by
  refine ⟨⟨?_, ?_⟩, fun hb hm => ⟨?_, ?_⟩, ?_⟩
  · unfold uploadToS3 ensureBucket ensureBucketOps
    rw [hc]
    cases hbe : w.bucketExistsResult with
    | error e => rfl
    | ok b =>
      cases b with
      | true => cases hp : w.putObjectErr <;> rfl
      | false =>
        cases hmk : w.makeBucketErr with
        | some e => rfl
        | none => cases hp : w.putObjectErr <;> rfl
  · unfold uploadDirectoryToS3 ensureBucket ensureBucketOps
    rw [hc]
    cases hbe : w.bucketExistsResult with
    | error e => rfl
    | ok b =>
      cases b with
      | true =>
        cases hw : (dirWalkUpload (baseName path) w.dirTimestamp w.dirPutErr w.dirEntries).1 <;>
          rfl
      | false =>
        cases hmk : w.makeBucketErr with
        | some e => rfl
        | none =>
          cases hw : (dirWalkUpload (baseName path) w.dirTimestamp w.dirPutErr w.dirEntries).1 <;>
            rfl
  · unfold uploadToS3 ensureBucket ensureBucketOps
    rw [hc, hb, hm]
    cases hp : w.putObjectErr <;> exact ⟨_, rfl⟩
  · unfold uploadDirectoryToS3 ensureBucket ensureBucketOps
    rw [hc, hb, hm]
    cases hw : (dirWalkUpload (baseName path) w.dirTimestamp w.dirPutErr w.dirEntries).1 <;>
      exact ⟨_, rfl⟩
  · unfold cleanupOldBackups
    rw [hc]
    intro hmem
    rcases List.mem_cons.mp hmem with h | h
    · exact S3Op.noConfusion h
    · exact cleanupSweep_only_removes w.cutoff w.listedObjects h

/-! ## C4 -/

theorem startsWithL_append_self (l s : List Char) : startsWithL l (l ++ s) = true := by
  induction l with
  | nil => rfl
  | cons c l ih => simp [startsWithL, ih]

theorem containsSub_append (pre m suf : List Char) :
    containsSub m (pre ++ (m ++ suf)) = true := by
  induction pre with
  | nil =>
    cases m with
    | nil =>
      cases suf with
      | nil => rfl
      | cons c cs => simp [containsSub, startsWithL]
    | cons a as => simp [containsSub, startsWithL, startsWithL_append_self]
  | cons p pre ih => simp [containsSub, ih]

theorem splitOnNl_ne_nil (cs : List Char) : splitOnNl cs ≠ [] := by
  cases cs with
  | nil => simp [splitOnNl]
  | cons c cs =>
    unfold splitOnNl
    by_cases h : c = '\n'
    · simp [h]
    · rw [if_neg h]
      cases hsp : splitOnNl cs <;> simp

theorem mem_splitOnNl_no_nl (cs : List Char) :
    ∀ l ∈ splitOnNl cs, ('\n' : Char) ∉ l := by
  induction cs with
  | nil =>
    intro l hl
    simp only [splitOnNl, List.mem_singleton] at hl
    simp [hl]
  | cons c cs ih =>
    intro l hl
    unfold splitOnNl at hl
    by_cases h : c = '\n'
    · rw [if_pos h] at hl
      rcases List.mem_cons.mp hl with rfl | hl'
      · simp
      · exact ih l hl'
    · rw [if_neg h] at hl
      cases hsp : splitOnNl cs with
      | nil => exact absurd hsp (splitOnNl_ne_nil cs)
      | cons x xs =>
        rw [hsp] at hl
        rcases List.mem_cons.mp hl with rfl | hl'
        · intro hmem
          rcases List.mem_cons.mp hmem with heq | hmem'
          · exact h heq.symm
          · exact ih x (by rw [hsp]; exact List.mem_cons_self x xs) hmem'
        · exact ih l (by rw [hsp]; exact List.mem_cons_of_mem x hl')

theorem splitOnNl_append_cons (l rest : List Char) (h : ('\n' : Char) ∉ l) :
    splitOnNl (l ++ '\n' :: rest) = l :: splitOnNl rest := by
  induction l with
  | nil => simp [splitOnNl]
  | cons c l ih =>
    have hc : ¬(c = '\n') := fun hc => h (hc ▸ List.mem_cons_self c l)
    have h' : ('\n' : Char) ∉ l := fun hm => h (List.mem_cons_of_mem c hm)
    simp only [List.cons_append, splitOnNl, if_neg hc, List.append_eq]
    rw [ih h']

theorem splitOnNl_joinSep (ls : List (List Char))
    (hall : ∀ l ∈ ls, ('\n' : Char) ∉ l) (hne : ls ≠ []) :
    splitOnNl (joinSep '\n' ls ++ ['\n']) = ls ++ [[]] := by
  induction ls with
  | nil => exact absurd rfl hne
  | cons l ls ih =>
    cases ls with
    | nil =>
      have hl : ('\n' : Char) ∉ l := hall l (List.mem_cons_self l [])
      simp only [joinSep]
      rw [show (l ++ ['\n'] : List Char) = l ++ '\n' :: [] from rfl,
        splitOnNl_append_cons l [] hl]
      rfl
    | cons l₂ ls' =>
      have hl : ('\n' : Char) ∉ l := hall l (List.mem_cons_self l _)
      have hjoin : joinSep '\n' (l :: l₂ :: ls') = l ++ '\n' :: joinSep '\n' (l₂ :: ls') := rfl
      rw [hjoin, List.append_assoc]
      rw [show ('\n' :: joinSep '\n' (l₂ :: ls') ++ ['\n'] : List Char) =
        '\n' :: (joinSep '\n' (l₂ :: ls') ++ ['\n']) from rfl]
      rw [splitOnNl_append_cons l _ hl]
      rw [ih (fun x hx => hall x (List.mem_cons_of_mem l hx)) (by simp)]
      rfl

theorem digitChar_ne_nl (n : Nat) : Nat.digitChar n ≠ '\n' := by
  rcases Nat.lt_or_ge n 16 with h | h
  · interval_cases n <;> decide
  · have hne : ∀ m : Nat, m < 16 → ¬(n = m) := by
      intro m hm heq
      omega
    have hstar : Nat.digitChar n = '*' := by
      unfold Nat.digitChar
      rw [if_neg (hne 0 (by norm_num)), if_neg (hne 1 (by norm_num)),
        if_neg (hne 2 (by norm_num)), if_neg (hne 3 (by norm_num)),
        if_neg (hne 4 (by norm_num)), if_neg (hne 5 (by norm_num)),
        if_neg (hne 6 (by norm_num)), if_neg (hne 7 (by norm_num)),
        if_neg (hne 8 (by norm_num)), if_neg (hne 9 (by norm_num)),
        if_neg (hne 10 (by norm_num)), if_neg (hne 11 (by norm_num)),
        if_neg (hne 12 (by norm_num)), if_neg (hne 13 (by norm_num)),
        if_neg (hne 14 (by norm_num)), if_neg (hne 15 (by norm_num))]
    rw [hstar]
    decide

theorem toDigitsCore_no_nl (b : Nat) :
    ∀ (f n : Nat) (ds : List Char), (∀ c ∈ ds, c ≠ '\n') →
      ∀ c ∈ Nat.toDigitsCore b f n ds, c ≠ '\n' := by
  intro f
  induction f with
  | zero => intro n ds h c hc; exact h c hc
  | succ f ih =>
    intro n ds h c hc
    simp only [Nat.toDigitsCore] at hc
    by_cases hz : n / b = 0
    · rw [if_pos hz] at hc
      rcases List.mem_cons.mp hc with rfl | hc'
      · exact digitChar_ne_nl (n % b)
      · exact h c hc'
    · rw [if_neg hz] at hc
      refine ih (n / b) (Nat.digitChar (n % b) :: ds) ?_ c hc
      intro c' hc'
      rcases List.mem_cons.mp hc' with rfl | hc''
      · exact digitChar_ne_nl (n % b)
      · exact h c' hc''

theorem repr_data_no_nl (n : Nat) : ∀ c ∈ (Nat.repr n).data, c ≠ '\n' := by
  intro c hc
  exact toDigitsCore_no_nl 10 (n + 1) n [] (by simp) c hc

theorem fieldsGo_chars :
    ∀ (cs acc : List Char) (l : List Char), l ∈ fieldsGo cs acc →
      ∀ c ∈ l, c ∈ cs ∨ c ∈ acc := by
  intro cs
  induction cs with
  | nil =>
    intro acc l hl c hc
    unfold fieldsGo at hl
    by_cases h : acc.isEmpty
    · rw [if_pos h] at hl
      exact absurd hl (List.not_mem_nil l)
    · rw [if_neg h] at hl
      rcases List.mem_singleton.mp hl with rfl
      exact Or.inr (List.mem_reverse.mp hc)
  | cons a cs ih =>
    intro acc l hl c hc
    unfold fieldsGo at hl
    by_cases hsp : isSpaceChar a = true
    · rw [if_pos hsp] at hl
      by_cases h : acc.isEmpty
      · rw [if_pos h] at hl
        rcases ih [] l hl c hc with h1 | h1
        · exact Or.inl (List.mem_cons_of_mem a h1)
        · exact absurd h1 (List.not_mem_nil c)
      · rw [if_neg h] at hl
        rcases List.mem_cons.mp hl with rfl | hl'
        · exact Or.inr (List.mem_reverse.mp hc)
        · rcases ih [] l hl' c hc with h1 | h1
          · exact Or.inl (List.mem_cons_of_mem a h1)
          · exact absurd h1 (List.not_mem_nil c)
    · rw [if_neg hsp] at hl
      rcases ih (a :: acc) l hl c hc with h1 | h1
      · exact Or.inl (List.mem_cons_of_mem a h1)
      · rcases List.mem_cons.mp h1 with rfl | h2
        · exact Or.inl (List.mem_cons_self c cs)
        · exact Or.inr h2

theorem joinSep_chars (sep : Char) :
    ∀ (ls : List (List Char)) (c : Char), c ∈ joinSep sep ls →
      c = sep ∨ ∃ l ∈ ls, c ∈ l := by
  intro ls
  induction ls with
  | nil => intro c hc; exact absurd hc (List.not_mem_nil c)
  | cons l ls ih =>
    cases ls with
    | nil =>
      intro c hc
      exact Or.inr ⟨l, List.mem_cons_self l [], hc⟩
    | cons l₂ ls' =>
      intro c hc
      have hjoin : joinSep sep (l :: l₂ :: ls') = l ++ sep :: joinSep sep (l₂ :: ls') := rfl
      rw [hjoin] at hc
      rcases List.mem_append.mp hc with h1 | h1
      · exact Or.inr ⟨l, List.mem_cons_self l _, h1⟩
      · rcases List.mem_cons.mp h1 with rfl | h2
        · exact Or.inl rfl
        · rcases ih c h2 with h3 | ⟨l', hl', hc'⟩
          · exact Or.inl h3
          · exact Or.inr ⟨l', List.mem_cons_of_mem l hl', hc'⟩

theorem externalCronExpr_no_nl (sc : String) (h : ('\n' : Char) ∉ sc.data) :
    ('\n' : Char) ∉ externalCronExpr sc := by
  unfold externalCronExpr
  by_cases hlen : (fields sc.data).length = 6
  · rw [if_pos hlen]
    intro hc
    rcases joinSep_chars ' ' _ '\n' hc with h1 | ⟨l, hl, hcl⟩
    · exact absurd h1 (by decide)
    · rcases fieldsGo_chars sc.data [] l (List.mem_of_mem_drop hl) '\n' hcl with h2 | h2
      · exact h h2
      · exact absurd h2 (List.not_mem_nil _)
  · rw [if_neg hlen]
    exact h

theorem cronLineOf_no_nl (task : Task) (h : ('\n' : Char) ∉ task.scheduleCron.data) :
    ('\n' : Char) ∉ cronLineOf task := by
  unfold cronLineOf
  intro hc
  rcases List.mem_append.mp hc with hc1 | hc2
  · rcases List.mem_append.mp hc1 with hc3 | hc4
    · exact externalCronExpr_no_nl _ h hc3
    · exact absurd hc4 (by decide)
  · exact repr_data_no_nl task.taskID '\n' hc2 rfl

theorem containsSub_marker_nil (tid : Nat) :
    containsSub (markerOf tid) [] = false := rfl

theorem containsSub_marker_cronLine (task : Task) :
    containsSub (markerOf task.taskID) (cronLineOf task) = true := by
  have heq : cronLineOf task =
      (externalCronExpr task.scheduleCron ++ " /usr/bin/backup-server-agent ".data) ++
        (markerOf task.taskID ++ []) := by
    unfold cronLineOf markerOf
    rw [show (" /usr/bin/backup-server-agent --task-id ".data : List Char) =
      " /usr/bin/backup-server-agent ".data ++ "--task-id ".data from rfl]
    simp [List.append_assoc]
  rw [heq]
  exact containsSub_append _ _ _

/-- C4 (amended): synchronizing the external schedule for a task keeps
exactly the lines *not containing* the task marker as a substring and
appends the new task line, so afterwards exactly one line contains the
marker — and adding a task twice in succession therefore leaves exactly
one line with its marker.  However the filter is substring-based, so it
also removes lines of any *other* task whose marker merely contains this
own marker as a substring (e.g. syncing task 1 removes a line of task
12); only lines not containing the marker are untouched.  The schedule
expression is assumed newline-free (a newline inside it would corrupt the
written line structure). -/
theorem updateSystemCron_sync (task : Task) (content : List Char)
    (hnl : ('\n' : Char) ∉ task.scheduleCron.data) :
    splitOnNl (updateSystemCron task content) =
      ((splitOnNl content).filter (fun l => !containsSub (markerOf task.taskID) l)) ++
        [cronLineOf task, []] ∧
    markedLineCount task.taskID (updateSystemCron task content) = 1 := by
  have h1 : splitOnNl (updateSystemCron task content) =
      ((splitOnNl content).filter (fun l => !containsSub (markerOf task.taskID) l)) ++
        [cronLineOf task, []] := by
    unfold updateSystemCron
    rw [splitOnNl_joinSep _ ?hall ?hne]
    · simp
    case hall =>
      intro l hl
      rcases List.mem_append.mp hl with h2 | h2
      · exact mem_splitOnNl_no_nl content l (List.mem_filter.mp h2).1
      · rcases List.mem_singleton.mp h2 with rfl
        exact cronLineOf_no_nl task hnl
    case hne => simp
  refine ⟨h1, ?_⟩
  unfold markedLineCount
  rw [h1, List.filter_append]
  have hkept : ((splitOnNl content).filter
      (fun l => !containsSub (markerOf task.taskID) l)).filter
      (fun l => containsSub (markerOf task.taskID) l) = [] := by
    rw [List.filter_eq_nil_iff]
    intro a ha
    have := (List.mem_filter.mp ha).2
    simp only [Bool.not_eq_true'] at this
    simp [this]
  rw [hkept]
  simp [containsSub_marker_cronLine, containsSub_marker_nil]

/-! ## Concrete fixtures, counterexamples and witnesses -/

/-- Fixture for C1: archiving and destination storage configured; the
object write fails. -/
def task1x : Task :=
  { taskID := 1, sourcePath := "/data", createArchive := true, archiveFormat := "tar.gz",
    s3Endpoint := "https://s3.example.com", s3AccessKey := "ak", s3SecretKey := "sk",
    s3Bucket := "backups", s3Region := "us-east-1", cleanupEnabled := false,
    cleanupDays := 0, isDockerCompose := false, dockerComposePath := "",
    scheduleCron := "" }

def s3w1x : S3World :=
  { clientErr := none, bucketExistsResult := .ok true, makeBucketErr := none,
    putObjectErr := some "connection reset", dirTimestamp := "20240101_120000",
    dirEntries := [], dirPutErr := fun _ => none, listedObjects := [], cutoff := 0 }

def w1x : World :=
  { now := 100, timestamp := "20240101_120000", archiveBuildErr := none,
    saveRecordErr := none, statResult := some 2048,
    sourceWalk := [{ err := false, isRegular := true }],
    updateRecordErr := none, removeErr := none, s3 := s3w1x }

def st1x : RunState := { ledger := [], localFiles := [], events := [] }

/-- Witness for C1 at a concrete failed upload. -/
theorem upload_failure_keeps_archive_witness :
    task1x.createArchive = true ∧ s3Configured task1x ∧
    ((ExecuteBackup task1x "9.9.9.9" w1x st1x).2.1 =
        some "failed to upload file: connection reset" ∧
      archivePathOf task1x.sourcePath task1x.archiveFormat "9.9.9.9" w1x.timestamp ∈
        (ExecuteBackup task1x "9.9.9.9" w1x st1x).2.2.localFiles ∧
      (ExecuteBackup task1x "9.9.9.9" w1x st1x).2.2.ledger =
        st1x.ledger ++
          (if w1x.saveRecordErr = none then [creatingRecordOf task1x "9.9.9.9" w1x] else []) ∧
      (creatingRecordOf task1x "9.9.9.9" w1x).status = "creating" ∧
      (creatingRecordOf task1x "9.9.9.9" w1x).s3UploadDate = none) :=
  ⟨rfl, by decide,
    upload_failure_keeps_archive_and_creating_record task1x "9.9.9.9" w1x st1x
      "failed to upload file: connection reset" rfl (by decide) rfl rfl⟩

/-- Fixture for C2: docker lifecycle, archiving, destination storage and
cleanup all enabled; every external call succeeds. -/
def task2x : Task :=
  { taskID := 2, sourcePath := "/data", createArchive := true, archiveFormat := "tar.gz",
    s3Endpoint := "http://s3.example.com", s3AccessKey := "ak", s3SecretKey := "sk",
    s3Bucket := "backups", s3Region := "us-east-1", cleanupEnabled := true,
    cleanupDays := 7, isDockerCompose := true,
    dockerComposePath := "/srv/app/docker-compose.yml", scheduleCron := "" }

def s3w2x : S3World :=
  { clientErr := none, bucketExistsResult := .ok true, makeBucketErr := none,
    putObjectErr := none, dirTimestamp := "20240101_120000",
    dirEntries := [], dirPutErr := fun _ => none, listedObjects := [], cutoff := 0 }

def w2x : World :=
  { now := 100, timestamp := "20240101_120000", archiveBuildErr := none,
    saveRecordErr := none, statResult := some 2048,
    sourceWalk := [{ err := false, isRegular := true }],
    updateRecordErr := none, removeErr := none, s3 := s3w2x }

def st2x : RunState := { ledger := [], localFiles := [], events := [] }

/-- Counterexample for C2: on a fully successful guarded run, the upload
and the cleanup both happen strictly *before* the (unique) docker restart
signal — the restart is not signaled before upload and cleanup run. -/
theorem restart_not_before_upload_counterexample :
    Event.uploadArchive ∈ (ExecuteBackup task2x "1.2.3.4" w2x st2x).2.2.events ∧
    Event.cleanup ∈ (ExecuteBackup task2x "1.2.3.4" w2x st2x).2.2.events ∧
    (ExecuteBackup task2x "1.2.3.4" w2x st2x).2.2.events.count Event.dockerStart = 1 ∧
    (ExecuteBackup task2x "1.2.3.4" w2x st2x).2.2.events.findIdx
        (fun e => e == Event.uploadArchive) <
      (ExecuteBackup task2x "1.2.3.4" w2x st2x).2.2.events.findIdx
        (fun e => e == Event.dockerStart) ∧
    (ExecuteBackup task2x "1.2.3.4" w2x st2x).2.2.events.findIdx
        (fun e => e == Event.cleanup) <
      (ExecuteBackup task2x "1.2.3.4" w2x st2x).2.2.events.findIdx
        (fun e => e == Event.dockerStart) := by
  decide

/-- Witness for the amended C2 at the same concrete guarded run. -/
theorem docker_restart_signaled_last_witness :
    dockerGuard task2x ∧
    (∃ mid : List Event,
      (ExecuteBackup task2x "1.2.3.4" w2x st2x).2.2.events =
        st2x.events ++ Event.dockerStop :: mid ++ [Event.dockerStart] ∧
      Event.dockerStart ∉ mid ∧ Event.dockerStop ∉ mid) :=
  ⟨by decide, docker_restart_signaled_last task2x "1.2.3.4" w2x st2x (by decide)⟩

/-- Fixture for the C4 counterexample: task identifier 1 is synchronized
while the crontab holds a line of task identifier 12. -/
def task4x : Task :=
  { taskID := 1, sourcePath := "/data", createArchive := false, archiveFormat := "",
    s3Endpoint := "", s3AccessKey := "", s3SecretKey := "", s3Bucket := "",
    s3Region := "", cleanupEnabled := false, cleanupDays := 0,
    isDockerCompose := false, dockerComposePath := "", scheduleCron := "0 3 * * *" }

def content4x : List Char :=
  "*/5 * * * * /usr/bin/backup-server-agent --task-id 12".data

/-- Counterexample for C4: the marker `--task-id 1` is matched by
substring containment, so it also matches the line of task 12: syncing
task 1 deletes the line of task 12 (its marked-line count drops from 1 to
0), refuting that the marker never matches a line of a different task
identifier and that every other task line is left untouched. -/
theorem marker_matches_other_task_counterexample :
    markedLineCount 12 content4x = 1 ∧
    markedLineCount 12 (updateSystemCron task4x content4x) = 0 := by
  decide

/-- Fixture for the C4 witness: a 6-field (seconds-bearing) schedule. -/
def task4w : Task :=
  { taskID := 7, sourcePath := "/data", createArchive := false, archiveFormat := "",
    s3Endpoint := "", s3AccessKey := "", s3SecretKey := "", s3Bucket := "",
    s3Region := "", cleanupEnabled := false, cleanupDays := 0,
    isDockerCompose := false, dockerComposePath := "", scheduleCron := "0 0 3 * * *" }

/-- Witness for the amended C4 on an empty crontab. -/
theorem updateSystemCron_sync_witness :
    (('\n' : Char) ∉ task4w.scheduleCron.data) ∧
    (splitOnNl (updateSystemCron task4w []) =
        ((splitOnNl ([] : List Char)).filter
          (fun l => !containsSub (markerOf task4w.taskID) l)) ++
          [cronLineOf task4w, []] ∧
      markedLineCount task4w.taskID (updateSystemCron task4w []) = 1) :=
  ⟨by decide, updateSystemCron_sync task4w [] (by decide)⟩

/-- Fixture for C5: the bucket-existence check reports the bucket absent
and the create call fails with an "already exists" error. -/
def task5x : Task :=
  { taskID := 5, sourcePath := "/data", createArchive := true, archiveFormat := "tar.gz",
    s3Endpoint := "http://s3.example.com", s3AccessKey := "ak", s3SecretKey := "sk",
    s3Bucket := "backups", s3Region := "us-east-1", cleanupEnabled := false,
    cleanupDays := 0, isDockerCompose := false, dockerComposePath := "",
    scheduleCron := "" }

def s3w5x : S3World :=
  { clientErr := none, bucketExistsResult := .ok false,
    makeBucketErr := some "BucketAlreadyOwnedByYou", putObjectErr := none,
    dirTimestamp := "20240101_120000", dirEntries := [], dirPutErr := fun _ => none,
    listedObjects := [], cutoff := 0 }

/-- Counterexample for C5: with the bucket reported absent and the create
call failing with an already-exists error, `uploadToS3` returns the error
and never issues a `putObject` — it does not treat the race as success. -/
theorem already_exists_returned_counterexample :
    uploadToS3 task5x "/tmp/a.tar.gz" s3w5x =
      (.error "failed to create bucket: BucketAlreadyOwnedByYou",
       [S3Op.bucketExistsCheck, S3Op.makeBucket]) := rfl

/-- Witness for the amended C5 at the same concrete race. -/
theorem makeBucket_error_aborts_upload_witness :
    s3w5x.bucketExistsResult = .ok false ∧
    s3w5x.makeBucketErr = some "BucketAlreadyOwnedByYou" ∧
    ((uploadToS3 task5x "/tmp/a.tar.gz" s3w5x).1 =
        .error ("failed to create bucket: " ++ "BucketAlreadyOwnedByYou") ∧
      (uploadToS3 task5x "/tmp/a.tar.gz" s3w5x).2 =
        [S3Op.bucketExistsCheck, S3Op.makeBucket] ∧
      (uploadDirectoryToS3 task5x "/tmp/a.tar.gz" s3w5x).1 =
        .error ("failed to create bucket: " ++ "BucketAlreadyOwnedByYou") ∧
      (uploadDirectoryToS3 task5x "/tmp/a.tar.gz" s3w5x).2 =
        [S3Op.bucketExistsCheck, S3Op.makeBucket]) :=
  ⟨rfl, rfl,
    makeBucket_error_aborts_upload task5x "/tmp/a.tar.gz" s3w5x
      "BucketAlreadyOwnedByYou" rfl rfl rfl⟩

/-- Fixture for C6: a cleanup sweep over a bucket holding one stale
object. -/
def task6x : Task :=
  { taskID := 6, sourcePath := "/data", createArchive := true, archiveFormat := "tar.gz",
    s3Endpoint := "http://s3.example.com", s3AccessKey := "ak", s3SecretKey := "sk",
    s3Bucket := "backups", s3Region := "us-east-1", cleanupEnabled := true,
    cleanupDays := 7, isDockerCompose := false, dockerComposePath := "",
    scheduleCron := "" }

def s3w6x : S3World :=
  { clientErr := none, bucketExistsResult := .ok true, makeBucketErr := none,
    putObjectErr := none, dirTimestamp := "20240101_120000", dirEntries := [],
    dirPutErr := fun _ => none,
    listedObjects := [{ err := false, key := "stale.tar.gz", lastModified := 0 }],
    cutoff := 10 }

/-- Counterexample for C6: the cleanup sweep deletes an object having
issued no bucket-existence check at all — its whole operation trace is a
listing followed by the delete. -/
theorem cleanup_without_bucket_check_counterexample :
    cleanupOldBackups task6x s3w6x =
      (none, [S3Op.listObjects, S3Op.removeObject "stale.tar.gz"]) ∧
    S3Op.bucketExistsCheck ∉ [S3Op.listObjects, S3Op.removeObject "stale.tar.gz"] := by
  decide

/-- Witness for the amended C6 at a concrete world. -/
theorem bucket_check_scope_witness :
    s3w6x.clientErr = none ∧
    (((uploadToS3 task6x "/tmp/c.tar.gz" s3w6x).2.head? = some S3Op.bucketExistsCheck ∧
      (uploadDirectoryToS3 task6x "/tmp/c.tar.gz" s3w6x).2.head? =
        some S3Op.bucketExistsCheck) ∧
     (s3w6x.bucketExistsResult = .ok false → s3w6x.makeBucketErr = none →
       (∃ rest, (uploadToS3 task6x "/tmp/c.tar.gz" s3w6x).2 =
          S3Op.bucketExistsCheck :: S3Op.makeBucket :: rest) ∧
       (∃ rest, (uploadDirectoryToS3 task6x "/tmp/c.tar.gz" s3w6x).2 =
          S3Op.bucketExistsCheck :: S3Op.makeBucket :: rest)) ∧
     S3Op.bucketExistsCheck ∉ (cleanupOldBackups task6x s3w6x).2) :=
  ⟨rfl, bucket_check_scope task6x "/tmp/c.tar.gz" s3w6x rfl⟩

/-- Fixture for C7: archiving and destination storage configured, every
call succeeds, the stat reports 5 MiB. -/
def task7x : Task :=
  { taskID := 7, sourcePath := "/data", createArchive := true, archiveFormat := "tar.gz",
    s3Endpoint := "http://s3.example.com", s3AccessKey := "ak", s3SecretKey := "sk",
    s3Bucket := "backups", s3Region := "us-east-1", cleanupEnabled := false,
    cleanupDays := 0, isDockerCompose := false, dockerComposePath := "",
    scheduleCron := "" }

def s3w7x : S3World :=
  { clientErr := none, bucketExistsResult := .ok true, makeBucketErr := none,
    putObjectErr := none, dirTimestamp := "20240101_120000", dirEntries := [],
    dirPutErr := fun _ => none, listedObjects := [], cutoff := 0 }

def w7x : World :=
  { now := 1700000000, timestamp := "20240101_120000", archiveBuildErr := none,
    saveRecordErr := none, statResult := some 5242880,
    sourceWalk := [{ err := false, isRegular := true }],
    updateRecordErr := none, removeErr := none, s3 := s3w7x }

def st7x : RunState := { ledger := [], localFiles := [], events := [] }

/-- Counterexample for C7: the stat succeeded with 5 MiB (5242880 bytes,
5 MB exactly) and the in-memory run result carries that size, yet the
final persisted record carries `archiveSizeMB = 0` — the size backfill
was never persisted, so the final record does not carry the size computed
from the stat. -/
theorem final_record_size_zero_counterexample :
    w7x.statResult = some 5242880 ∧
    (ExecuteBackup task7x "1.2.3.4" w7x st7x).1.archiveSize = 5242880 ∧
    (ExecuteBackup task7x "1.2.3.4" w7x st7x).2.2.ledger.map
      (fun r => r.archiveSizeMB) = [0] ∧
    (ExecuteBackup task7x "1.2.3.4" w7x st7x).2.2.ledger.map
      (fun r => r.status) = ["success"] ∧
    (5242880 : ℚ) / (1024 * 1024) = 5 ∧ (0 : ℚ) ≠ 5 := by
  refine ⟨by decide, by decide, by decide, by decide, by norm_num, by norm_num⟩

/-- Witness for the amended C7 at the same concrete run. -/
theorem ledger_record_mutated_once_witness :
    task7x.createArchive = true ∧ s3Configured task7x ∧
    (ExecuteBackup task7x "1.2.3.4" w7x st7x).2.2.ledger =
      st7x.ledger ++
        [applyUpload "s3://backups/1.2.3.4_data_20240101_120000.tar.gz" w7x.now
          (creatingRecordOf task7x "1.2.3.4" w7x)] ∧
    (applyUpload "s3://backups/1.2.3.4_data_20240101_120000.tar.gz" w7x.now
      (creatingRecordOf task7x "1.2.3.4" w7x)).archiveSizeMB = 0 ∧
    (applyUpload "s3://backups/1.2.3.4_data_20240101_120000.tar.gz" w7x.now
      (creatingRecordOf task7x "1.2.3.4" w7x)).status = "success" ∧
    (applyUpload "s3://backups/1.2.3.4_data_20240101_120000.tar.gz" w7x.now
      (creatingRecordOf task7x "1.2.3.4" w7x)).s3Path =
        "s3://backups/1.2.3.4_data_20240101_120000.tar.gz" ∧
    (applyUpload "s3://backups/1.2.3.4_data_20240101_120000.tar.gz" w7x.now
      (creatingRecordOf task7x "1.2.3.4" w7x)).s3UploadDate = some w7x.now :=
  ⟨rfl, by decide,
    ledger_record_mutated_once_size_not_persisted task7x "1.2.3.4" w7x st7x
      "s3://backups/1.2.3.4_data_20240101_120000.tar.gz"
      rfl (by decide) rfl rfl rfl rfl (by decide)⟩

end BackupAgent
